import Mathlib

/-!
Verification of the duck-takes-flight table service against its
natural-language specification.

The development shallowly embeds the server (`server.py`) and client
(`client.py`) of the repository.  Pure computations (schema inference, batch
chunking, UTF-8 decoding, the retry loop) become Lean functions; the stateful
store connection becomes explicit state passing over a `DB` value; Python
functions that may raise become `Except`- or `Option`-valued functions.  The
external collaborators (the columnar library's `to_batches` / `from_batches`
and the store's SQL statements) are modelled from the contracts the
specification states for them, with the empty-batch-list failure of
`from_batches` taken from the library error message quoted verbatim in
`client.py` ("Must pass schema, or at least one RecordBatch").
-/

namespace DuckTakesFlight

/-- Opaque cell payload: the claims under verification never inspect cell
values, only schemas, row counts and row order, so a cell is an opaque id. -/
abbrev Val := Nat

/-- A row of a columnar table, one opaque cell per column. -/
abbrev Row := List Val

/-- Logical column types of incoming columnar data, as discriminated by the
`pa.types.is_*` tests in `do_put` (spec data model: integer, floating-point,
string, boolean, timestamp, date, other). -/
inductive LogicalType where
  | integer
  | floating
  | string
  | boolean
  | timestamp
  | date
  | other
  deriving DecidableEq, Repr

/-- Store column types produced by schema inference in `do_put`. -/
inductive StoreType where
  | BIGINT
  | DOUBLE
  | VARCHAR
  | BOOLEAN
  | TIMESTAMP
  | DATE
  deriving DecidableEq, Repr

/-- Schema of a columnar table: ordered (name, logical type) pairs. -/
abbrev Schema := List (String × LogicalType)

/-- A columnar table: a schema plus its rows in order.  Row-major form: the
claims concern chunking of rows, row order and row counts. -/
structure ColumnarTable where
  schema : Schema
  rows : List Row
  deriving DecidableEq, Repr

/-- A record batch: a contiguous slice of a table's rows, carrying the
table's schema. -/
structure RecordBatch where
  schema : Schema
  rows : List Row
  deriving DecidableEq, Repr

/-- Chunk a row list into consecutive slices of `size` rows (last slice may be
shorter); fuel-indexed so the recursion is structural.  `chunkRows` supplies
fuel `rows.length`, which suffices because each step consumes at least one
row when `1 ≤ size`. -/
def chunkRowsGo (size : Nat) : Nat → List Row → List (List Row)
  | _, [] => []
  | 0, _ :: _ => []
  | fuel + 1, r :: rs =>
      (r :: rs).take size :: chunkRowsGo size fuel ((r :: rs).drop size)

/-- Modelled from the spec: the Batch Chunker's `toBatches` row slicing
(`Table.to_batches(max_chunksize=size)` of the columnar library, called by
`do_get` and `do_put`): slices rows in order, the last batch may be shorter,
and a zero-row table yields the empty sequence. -/
def chunkRows (size : Nat) (rows : List Row) : List (List Row) :=
  chunkRowsGo size rows.length rows

/-- Modelled from the spec: `toBatches(table, maxChunkSize)` — partition a
table's rows in order into record batches of at most `size` rows, each tagged
with the table's schema. -/
def toBatches (size : Nat) (t : ColumnarTable) : List RecordBatch :=
  (chunkRows size t.rows).map (fun c => RecordBatch.mk t.schema c)

/-- Failures of batch reassembly. -/
inductive ChunkError where
  /-- The columnar library's `Table.from_batches` on an empty batch list with
  no explicit schema: the ValueError whose message, quoted in `client.py`, is
  "Must pass schema, or at least one RecordBatch". -/
  | noSchema
  /-- Reassembly of batches with differing schemas. -/
  | schemaMismatch
  deriving DecidableEq, Repr

/-- Modelled from the spec: `fromBatches` — reassemble a batch sequence into
one table (`pa.Table.from_batches(batches)` with no explicit schema): the
schema is taken from the first batch, every batch must carry the same schema,
and an empty sequence fails because no schema is available. -/
def fromBatches : List RecordBatch → Except ChunkError ColumnarTable
  | [] => .error .noSchema
  | b :: bs =>
      if ∀ x ∈ bs, x.schema = b.schema then
        .ok ⟨b.schema, ((b :: bs).map RecordBatch.rows).flatten⟩
      else .error .schemaMismatch

/-! ### UTF-8 decoding

`ticket.ticket.decode("utf-8")` and `action.body.to_pybytes().decode("utf-8")`
are Python's strict UTF-8 decoder; it is embedded here over byte lists,
returning the decoded code points or `none` on any ill-formed input
(stray continuation byte, overlong form, surrogate, out-of-range or
truncated sequence). -/

/-- A decoded query: the sequence of Unicode code points of the SQL text. -/
abbrev Query := List Nat

/-- True for UTF-8 continuation bytes `0x80 ≤ b < 0xC0`. -/
def isContByte (b : Nat) : Bool := 0x80 ≤ b && b < 0xC0

/-- Decode one UTF-8 scalar value from the front of a byte list, returning it
with the remaining bytes, or `none` if the front is ill-formed. -/
def utf8DecodeOne : List Nat → Option (Nat × List Nat)
  | [] => none
  | b :: rest =>
      if b < 0x80 then some (b, rest)
      else if b < 0xC2 then none
      else if b < 0xE0 then
        match rest with
        | b1 :: r =>
            if isContByte b1 then some ((b - 0xC0) * 0x40 + (b1 - 0x80), r)
            else none
        | [] => none
      else if b < 0xF0 then
        match rest with
        | b1 :: b2 :: r =>
            if isContByte b1 && isContByte b2 then
              let cp := (b - 0xE0) * 0x1000 + (b1 - 0x80) * 0x40 + (b2 - 0x80)
              if cp < 0x800 || (0xD800 ≤ cp && cp ≤ 0xDFFF) then none
              else some (cp, r)
            else none
        | _ => none
      else if b < 0xF5 then
        match rest with
        | b1 :: b2 :: b3 :: r =>
            if isContByte b1 && isContByte b2 && isContByte b3 then
              let cp := (b - 0xF0) * 0x40000 + (b1 - 0x80) * 0x1000 +
                (b2 - 0x80) * 0x40 + (b3 - 0x80)
              if cp < 0x10000 || 0x10FFFF < cp then none
              else some (cp, r)
            else none
        | _ => none
      else none

/-- Fuel-indexed strict UTF-8 decoding loop; each step consumes at least one
byte, so fuel `bytes.length` (supplied by `decodeUtf8`) always suffices. -/
def decodeUtf8Go : Nat → List Nat → Option (List Nat)
  | _, [] => some []
  | 0, _ :: _ => none
  | fuel + 1, b :: bs =>
      match utf8DecodeOne (b :: bs) with
      | none => none
      | some (cp, rest) => (decodeUtf8Go fuel rest).map (fun cps => cp :: cps)

/-- Python's `bytes.decode("utf-8")`: the decoded code points, or `none` when
the bytes are not valid UTF-8 (where Python raises `UnicodeDecodeError`). -/
def decodeUtf8 (bytes : List Nat) : Option Query :=
  decodeUtf8Go bytes.length bytes

/-! ### Server: `do_get` -/

/-- Opaque store-error payload (the message of an error raised by
`conn.execute`). -/
abbrev StoreErr := Nat

/-- Failures of a `do_get` call. -/
inductive GetError where
  /-- `UnicodeDecodeError` from decoding the ticket: the spec's
  `InvalidEncoding`. -/
  | invalidEncoding
  /-- The store rejected the SQL: the spec's `QueryExecutionError`. -/
  | queryError (e : StoreErr)
  /-- `pa.Table.from_batches` failed while reassembling the result batches. -/
  | reassembly (e : ChunkError)
  deriving DecidableEq, Repr

/-- `DuckDBFlightServer.do_get`: decode the ticket bytes as UTF-8, execute the
query against the store substrate `exec`, slice the result table into batches
of at most 1024 rows, reassemble them, and return the reassembled table as
the stream's content.  The second component records which queries the call
executed on the store connection, in order. -/
def doGet (exec : Query → Except StoreErr ColumnarTable) (ticket : List Nat) :
    Except GetError ColumnarTable × List Query :=
  match decodeUtf8 ticket with
  | none => (.error .invalidEncoding, [])
  | some q =>
      match exec q with
      | .error e => (.error (.queryError e), [q])
      | .ok t =>
          match fromBatches (toBatches 1024 t) with
          | .error e => (.error (.reassembly e), [q])
          | .ok t2 => (.ok t2, [q])

/-! ### Server: schema inference and `do_put` -/

/-- `pa.types.is_integer`. -/
def isInteger : LogicalType → Bool
  | .integer => true
  | _ => false

/-- `pa.types.is_floating`. -/
def isFloating : LogicalType → Bool
  | .floating => true
  | _ => false

/-- `pa.types.is_string`. -/
def isString : LogicalType → Bool
  | .string => true
  | _ => false

/-- `pa.types.is_boolean`. -/
def isBoolean : LogicalType → Bool
  | .boolean => true
  | _ => false

/-- `pa.types.is_timestamp`. -/
def isTimestamp : LogicalType → Bool
  | .timestamp => true
  | _ => false

/-- `pa.types.is_date`. -/
def isDate : LogicalType → Bool
  | .date => true
  | _ => false

/-- The if/elif chain of `do_put` mapping a field's logical type to a store
column type, checked in order, first match wins, defaulting to VARCHAR. -/
def inferDuckdbType (t : LogicalType) : StoreType :=
  if isInteger t then .BIGINT
  else if isFloating t then .DOUBLE
  else if isString t then .VARCHAR
  else if isBoolean t then .BOOLEAN
  else if isTimestamp t then .TIMESTAMP
  else if isDate t then .DATE
  else .VARCHAR

/-- Inferred store schema: ordered (name, store type) pairs. -/
abbrev StoreSchema := List (String × StoreType)

/-- The `schema_fields` accumulation loop of `do_put`: for each field of the
incoming schema, in order, append the pair of its name and its inferred store
type (the code renders the pair as the DDL fragment "name TYPE"). -/
def schemaFields (fields : Schema) : StoreSchema :=
  fields.foldl (fun acc f => acc ++ [(f.1, inferDuckdbType f.2)]) []

/-- First-match association lookup, as the store resolves table and transient
source names. -/
def assocFind (name : String) : List (String × α) → Option α
  | [] => none
  | (k, v) :: rest => if k = name then some v else assocFind name rest

/-- Replace the value bound to `name` (no effect when `name` is unbound). -/
def assocSet (name : String) (v : α) : List (String × α) → List (String × α)
  | [] => []
  | (k, w) :: rest =>
      if k = name then (k, v) :: rest else (k, w) :: assocSet name v rest

/-- The store connection's state: the persistent tables (name, schema, rows)
and the transient registrations made with `conn.register` (most recent
binding first; lookup takes the most recent). -/
structure DB where
  tables : List (String × (StoreSchema × List Row))
  registered : List (String × ColumnarTable)
  deriving DecidableEq, Repr

/-- Modelled from the spec: the store's `CREATE TABLE IF NOT EXISTS name
(schema)` — create an empty table under `name` unless one already exists, in
which case the existing table (and its schema) is left untouched. -/
def createTableIfNotExists (db : DB) (name : String) (schema : StoreSchema) :
    DB :=
  match assocFind name db.tables with
  | some _ => db
  | none => { db with tables := db.tables ++ [(name, (schema, []))] }

/-- Modelled from the spec: `conn.register(name, table)` — bind an in-memory
table as a transient named source, overwriting any previous binding of the
same name. -/
def registerTransient (db : DB) (name : String) (t : ColumnarTable) : DB :=
  { db with registered := (name, t) :: db.registered }

/-- Failures of a `do_put` call. -/
inductive PutError where
  /-- `pa.Table.from_batches` failed while rebuilding the aligned table. -/
  | reassembly (e : ChunkError)
  /-- The spec's `InsertError`: the source is incompatible (by inferred store
  schema) with the existing table, or a name failed to resolve. -/
  | insertError
  deriving DecidableEq, Repr

/-- Modelled from the spec: the store's `INSERT INTO name SELECT * FROM
temp_table` — append the rows of the transient source to the persistent
table when the source's inferred store schema matches the table's schema,
failing with `InsertError` otherwise. -/
def insertFromTemp (db : DB) (name : String) : DB × Option PutError :=
  match assocFind "temp_table" db.registered, assocFind name db.tables with
  | some src, some (schema, rows) =>
      if schemaFields src.schema = schema then
        ({ db with tables := assocSet name (schema, rows ++ src.rows) db.tables },
          none)
      else (db, some .insertError)
  | _, _ => (db, some .insertError)

/-- `DuckDBFlightServer.do_put`: infer the store schema of the incoming
table, create the target table if absent, rebuild the incoming table from its
batches (the "alignment" round trip), register it under the fixed transient
name "temp_table", and insert it into the target.  Returns the store state as
mutated up to the point of any failure (a raised exception leaves the earlier
statements' effects in place), paired with the failure if one occurred. -/
def doPut (db : DB) (name : String) (t : ColumnarTable) : DB × Option PutError :=
  let db1 := createTableIfNotExists db name (schemaFields t.schema)
  match fromBatches (toBatches 1024 t) with
  | .error e => (db1, some (.reassembly e))
  | .ok aligned => insertFromTemp (registerTransient db1 "temp_table" aligned) name

/-! ### Server: `do_action` -/

/-- Failures of a `do_action` call. -/
inductive ActionError where
  /-- `UnicodeDecodeError` from decoding the body: the spec's
  `InvalidEncoding`. -/
  | invalidEncoding
  /-- The store rejected the SQL: the spec's `QueryExecutionError`. -/
  | queryError (e : StoreErr)
  /-- `NotImplementedError` for an unrecognized action type, carrying that
  type: the spec's `UnsupportedAction`. -/
  | unsupportedAction (atype : String)
  deriving DecidableEq, Repr

/-- `DuckDBFlightServer.do_action`: for type "query", decode the body as
UTF-8 SQL and execute it on the store substrate `exec` with no result
capture, returning the empty result list; for any other type, fail with the
unsupported-action error carrying the type.  The second component records
which queries the call executed on the store connection. -/
def doAction (exec : Query → Except StoreErr Unit) (atype : String)
    (body : List Nat) :
    Except ActionError (List (List Nat)) × List Query :=
  if atype = "query" then
    match decodeUtf8 body with
    | none => (.error .invalidEncoding, [])
    | some q =>
        match exec q with
        | .error e => (.error (.queryError e), [q])
        | .ok _ => (.ok [], [q])
  else (.error (.unsupportedAction atype), [])

/-! ### Client: connection retry and construction -/

/-- Outcome of `connect_with_retry`: a connection, the re-raised transient
failure after exhausting all attempts, or Python's implicit `None` return
when the loop body never runs. -/
inductive ConnResult (E C : Type) where
  | connected (c : C)
  | exhausted (e : E)
  | fellOff
  deriving DecidableEq

/-- Observable trace of a `connect_with_retry` run: how many connection
attempts were made and how many fixed 1-second sleeps occurred. -/
structure RetryTrace where
  attempts : Nat
  sleeps : Nat
  deriving DecidableEq, Repr

/-- The retry loop of `connect_with_retry`, one step per value of `attempt`:
try `sub i`; on success return the connection; on a transient failure, sleep
and continue if `attempt < max_attempts - 1` (equivalently `0 < rem` for
`rem + 1` remaining iterations), else re-raise. -/
def connectGo (sub : Nat → Except E C) :
    Nat → Nat → Nat → Nat → ConnResult E C × RetryTrace
  | _, 0, att, slp => (.fellOff, ⟨att, slp⟩)
  | i, rem + 1, att, slp =>
      match sub i with
      | .ok c => (.connected c, ⟨att + 1, slp⟩)
      | .error e =>
          if 0 < rem then connectGo sub (i + 1) rem (att + 1) (slp + 1)
          else (.exhausted e, ⟨att + 1, slp⟩)

/-- `DuckDBFlightClient.connect_with_retry` over a connection substrate `sub`
giving each attempt's outcome (`.error` is a `FlightUnavailableError`),
paired with the observable attempt/sleep trace. -/
def connectWithRetry (sub : Nat → Except E C) (maxAttempts : Nat) :
    ConnResult E C × RetryTrace :=
  connectGo sub 0 maxAttempts 0 0

/-- The client handle state after construction: the location string and the
connection stored in `self.client` (`none` when `connect_with_retry` returned
Python's `None`). -/
structure ClientState (C : Type) where
  location : String
  client : Option C
  deriving DecidableEq

/-- The location string `grpc://host:port` built by the constructor. -/
def mkLocation (host : String) (port : Nat) : String :=
  "grpc://" ++ host ++ ":" ++ toString port

/-- `DuckDBFlightClient.__init__`: build the location and connect with retry;
an exhausted retry re-raises out of the constructor, otherwise the result
(a connection, or `None`) is stored in `self.client`. -/
def clientInit (sub : Nat → Except E C) (host : String)
    (port maxAttempts : Nat) : Except E (ClientState C) :=
  match (connectWithRetry sub maxAttempts).1 with
  | .connected c => .ok ⟨mkLocation host port, some c⟩
  | .exhausted e => .error e
  | .fellOff => .ok ⟨mkLocation host port, none⟩

/-! ### Client: facade operations

Each facade method wraps an underlying transport call whose outcome (a value,
or a raised exception) is the argument `r`; the `Except` result type records
that a Python method may itself raise, so "never raises" is the statement
that the result is always `.ok`. -/

/-- A Python exception as observed by the facade's handlers: whether it is a
`ValueError`, whether its message contains "Must pass schema, or at least one
RecordBatch", and an opaque payload. -/
structure PyExn where
  isValueError : Bool
  hasSchemaMsg : Bool
  payload : Nat
  deriving DecidableEq, Repr

/-- `pa.Table.from_arrays([], [])`: the empty table with no columns. -/
def emptyTable : ColumnarTable := ⟨[], []⟩

/-- The inner `try` of `execute_query` around `reader.read_all()`: a
`ValueError` whose message mentions "Must pass schema, or at least one
RecordBatch" is converted to the empty table; any other exception is
re-raised. -/
def readAllRecover (r : Except PyExn ColumnarTable) :
    Except PyExn ColumnarTable :=
  match r with
  | .ok t => .ok t
  | .error e =>
      if e.isValueError then
        if e.hasSchemaMsg then .ok emptyTable else .error e
      else .error e

/-- `DuckDBFlightClient.execute_query`: the inner handler may recover an
empty result; the outer `except Exception` converts any remaining failure to
the `None` sentinel. -/
def executeQuery (r : Except PyExn ColumnarTable) :
    Except PyExn (Option ColumnarTable) :=
  match readAllRecover r with
  | .ok t => .ok (some t)
  | .error _ => .ok none

/-- `DuckDBFlightClient.upload_data`: `True` on success, and any exception is
converted to the `False` sentinel. -/
def uploadData (r : Except PyExn Unit) : Except PyExn Bool :=
  match r with
  | .ok _ => .ok true
  | .error _ => .ok false

/-- `DuckDBFlightClient.execute_action`: the result list on success, and any
exception is converted to the empty-list sentinel. -/
def executeAction (r : Except PyExn (List (List Nat))) :
    Except PyExn (List (List Nat)) :=
  match r with
  | .ok rs => .ok rs
  | .error _ => .ok []

/-! ## Helper lemmas on the batch chunker -/

theorem chunkRowsGo_nil (size fuel : Nat) : chunkRowsGo size fuel [] = [] := by
  cases fuel <;> rfl

theorem chunkRowsGo_flatten (size : Nat) (hs : 1 ≤ size) :
    ∀ fuel rows, rows.length ≤ fuel →
      (chunkRowsGo size fuel rows).flatten = rows := by
  intro fuel
  induction fuel with
  | zero =>
      intro rows h
      have hrows : rows = [] := List.length_eq_zero.mp (Nat.le_zero.mp h)
      subst hrows
      simp [chunkRowsGo]
  | succ n ih =>
      intro rows h
      cases rows with
      | nil => simp [chunkRowsGo]
      | cons r rs =>
          simp only [chunkRowsGo, List.flatten_cons]
          rw [ih]
          · exact List.take_append_drop size (r :: rs)
          · have hd : ((r :: rs).drop size).length = (r :: rs).length - size :=
              List.length_drop size (r :: rs)
            have hl : (r :: rs).length ≤ n + 1 := h
            omega

theorem chunkRowsGo_mem_length (size : Nat) :
    ∀ fuel rows, ∀ c ∈ chunkRowsGo size fuel rows, c.length ≤ size := by
  intro fuel
  induction fuel with
  | zero =>
      intro rows c hc
      cases rows <;> simp [chunkRowsGo] at hc
  | succ n ih =>
      intro rows c hc
      cases rows with
      | nil => simp [chunkRowsGo] at hc
      | cons r rs =>
          simp only [chunkRowsGo, List.mem_cons] at hc
          rcases hc with hc | hc
          · subst hc
            rw [List.length_take]
            exact Nat.min_le_left _ _
          · exact ih _ c hc

theorem chunkRowsGo_ne_nil (size : Nat) :
    ∀ fuel r rs, (r : Row) :: rs = [] ∨ fuel = 0 ∨
      chunkRowsGo size fuel (r :: rs) ≠ [] := by
  intro fuel r rs
  cases fuel with
  | zero => exact Or.inr (Or.inl rfl)
  | succ n =>
      refine Or.inr (Or.inr ?_)
      simp [chunkRowsGo]

theorem chunkRows_nil (size : Nat) : chunkRows size [] = [] := rfl

theorem chunkRows_cons (size : Nat) (r : Row) (rs : List Row) :
    chunkRows size (r :: rs) =
      (r :: rs).take size :: chunkRowsGo size rs.length ((r :: rs).drop size) :=
  rfl

theorem chunkRows_eq_nil_iff (size : Nat) (rows : List Row) :
    chunkRows size rows = [] ↔ rows = [] := by
  cases rows with
  | nil => simp [chunkRows_nil]
  | cons r rs => simp [chunkRows_cons]

theorem chunkRows_flatten (size : Nat) (hs : 1 ≤ size) (rows : List Row) :
    (chunkRows size rows).flatten = rows :=
  chunkRowsGo_flatten size hs rows.length rows (Nat.le_refl _)

theorem chunkRowsGo_get_length (size : Nat) (hs : 1 ≤ size) :
    ∀ fuel rows, rows.length ≤ fuel →
      ∀ i, ∀ h : i + 1 < (chunkRowsGo size fuel rows).length,
        ((chunkRowsGo size fuel rows).get ⟨i, Nat.lt_of_succ_lt h⟩).length =
          size := by
  intro fuel
  induction fuel with
  | zero =>
      intro rows hlen i h
      have hrows : rows = [] := List.length_eq_zero.mp (Nat.le_zero.mp hlen)
      subst hrows
      simp [chunkRowsGo] at h
  | succ n ih =>
      intro rows hlen i h
      cases rows with
      | nil => simp [chunkRowsGo] at h
      | cons r rs =>
          cases i with
          | zero =>
              simp only [chunkRowsGo, List.length_cons] at h
              have htail : chunkRowsGo size n ((r :: rs).drop size) ≠ [] := by
                intro hnil
                rw [hnil] at h
                simp at h
              have hdrop : (r :: rs).drop size ≠ [] := by
                intro hnil
                rw [hnil, chunkRowsGo_nil] at htail
                exact htail rfl
              have hlt : size < (r :: rs).length := by
                by_contra hle
                exact hdrop (List.drop_eq_nil_of_le (Nat.le_of_not_lt hle))
              simp only [chunkRowsGo, List.get]
              rw [List.length_take]
              omega
          | succ j =>
              simp only [chunkRowsGo, List.length_cons] at h
              simp only [chunkRowsGo, List.get]
              apply ih
              · have hd : ((r :: rs).drop size).length = (r :: rs).length - size :=
                  List.length_drop size (r :: rs)
                have hl : (r :: rs).length ≤ n + 1 := hlen
                omega
              · omega

theorem chunkRows_get_length (size : Nat) (hs : 1 ≤ size) (rows : List Row) :
    ∀ i, ∀ h : i + 1 < (chunkRows size rows).length,
      ((chunkRows size rows).get ⟨i, Nat.lt_of_succ_lt h⟩).length = size :=
  chunkRowsGo_get_length size hs rows.length rows (Nat.le_refl _)

theorem map_rows_mk (schema : Schema) (cs : List (List Row)) :
    cs.map (RecordBatch.rows ∘ fun x => RecordBatch.mk schema x) = cs := by
  induction cs with
  | nil => rfl
  | cons a as iha => simpa using iha

/-- Round-trip helper: reassembling the batches of a table with at least one
row recovers the table exactly. -/
theorem roundtrip_aux (size : Nat) (hs : 1 ≤ size) (t : ColumnarTable)
    (h : t.rows ≠ []) : fromBatches (toBatches size t) = .ok t := by
  obtain ⟨schema, rows⟩ := t
  simp only [toBatches] at *
  cases hc : chunkRows size rows with
  | nil => exact absurd ((chunkRows_eq_nil_iff size rows).mp hc) h
  | cons c cs =>
      simp only [List.map_cons, fromBatches]
      rw [if_pos]
      · have hflat : (c :: cs).flatten = rows := by
          rw [← hc]; exact chunkRows_flatten size hs rows
        simp only [List.map_cons, List.map_map]
        rw [map_rows_mk]
        show Except.ok ⟨schema, (c :: cs).flatten⟩ =
          (Except.ok ⟨schema, rows⟩ : Except ChunkError ColumnarTable)
        rw [hflat]
      · intro x hx
        rcases List.mem_map.mp hx with ⟨y, _, hy⟩
        rw [← hy]

/-! ## Helper lemmas on the retry loop -/

theorem connectGo_step {E C : Type} (sub : Nat → Except E C)
    (i rem att slp : Nat) :
    connectGo sub i (rem + 1) att slp =
      match sub i with
      | .ok c => (.connected c, ⟨att + 1, slp⟩)
      | .error e =>
          if 0 < rem then connectGo sub (i + 1) rem (att + 1) (slp + 1)
          else (.exhausted e, ⟨att + 1, slp⟩) := rfl

theorem connectGo_allfail {E C : Type} (sub : Nat → Except E C) (err : Nat → E)
    (hsub : ∀ j, sub j = .error (err j)) :
    ∀ n i att slp, connectGo sub i (n + 1) att slp =
      (.exhausted (err (i + n)), ⟨att + n + 1, slp + n⟩) := by
  intro n
  induction n with
  | zero =>
      intro i att slp
      simp [connectGo_step, hsub i]
  | succ m ih =>
      intro i att slp
      rw [connectGo_step, hsub i]
      show (if 0 < m + 1 then connectGo sub (i + 1) (m + 1) (att + 1) (slp + 1)
          else (.exhausted (err i), ⟨att + 1, slp⟩)) =
        (.exhausted (err (i + (m + 1))), ⟨att + (m + 1) + 1, slp + (m + 1)⟩)
      rw [if_pos (Nat.succ_pos m)]
      rw [ih (i + 1) (att + 1) (slp + 1)]
      have e1 : i + 1 + m = i + (m + 1) := by omega
      have e2 : att + 1 + m + 1 = att + (m + 1) + 1 := by omega
      have e3 : slp + 1 + m = slp + (m + 1) := by omega
      rw [e1, e2, e3]

theorem connectGo_success {E C : Type} (sub : Nat → Except E C) :
    ∀ k i rem att slp (c : C), k + 1 ≤ rem →
      (∀ j, j < k → ∃ e, sub (i + j) = .error e) →
      sub (i + k) = .ok c →
      connectGo sub i rem att slp = (.connected c, ⟨att + k + 1, slp + k⟩) := by
  intro k
  induction k with
  | zero =>
      intro i rem att slp c hrem hfail hok
      obtain ⟨m, rfl⟩ : ∃ m, rem = m + 1 := ⟨rem - 1, by omega⟩
      have hok2 : sub i = .ok c := by simpa using hok
      simp [connectGo_step, hok2]
  | succ m ih =>
      intro i rem att slp c hrem hfail hok
      obtain ⟨p, rfl⟩ : ∃ p, rem = p + 1 := ⟨rem - 1, by omega⟩
      obtain ⟨e0, he0⟩ := hfail 0 (Nat.succ_pos m)
      have he0b : sub i = .error e0 := by simpa using he0
      rw [connectGo_step, he0b]
      show (if 0 < p then connectGo sub (i + 1) p (att + 1) (slp + 1)
          else (.exhausted e0, ⟨att + 1, slp⟩)) =
        (.connected c, ⟨att + (m + 1) + 1, slp + (m + 1)⟩)
      rw [if_pos (by omega : 0 < p)]
      have hfail2 : ∀ j, j < m → ∃ e, sub (i + 1 + j) = .error e := by
        intro j hj
        obtain ⟨e, he⟩ := hfail (j + 1) (by omega)
        refine ⟨e, ?_⟩
        have hx : i + 1 + j = i + (j + 1) := by omega
        rw [hx]
        exact he
      have hok2 : sub (i + 1 + m) = .ok c := by
        have hx : i + 1 + m = i + (m + 1) := by omega
        rw [hx]
        exact hok
      rw [ih (i + 1) p (att + 1) (slp + 1) c (by omega) hfail2 hok2]
      have e2 : att + 1 + m + 1 = att + (m + 1) + 1 := by omega
      have e3 : slp + 1 + m = slp + (m + 1) := by omega
      rw [e2, e3]

/-! ## Helper lemmas on association lists and schema inference -/

theorem assocFind_head {α : Type} (name : String) (v : α)
    (rest : List (String × α)) :
    assocFind name ((name, v) :: rest) = some v := by
  simp [assocFind]

theorem assocFind_append_of_none {α : Type} (name : String)
    (l1 l2 : List (String × α)) (h : assocFind name l1 = none) :
    assocFind name (l1 ++ l2) = assocFind name l2 := by
  induction l1 with
  | nil => rfl
  | cons kv rest ih =>
      obtain ⟨k, v⟩ := kv
      by_cases hk : k = name
      · simp [assocFind, hk] at h
      · simp only [assocFind, List.cons_append] at h
        simp only [assocFind, List.cons_append]
        rw [if_neg hk] at h
        rw [if_neg hk]
        exact ih h

theorem assocFind_set {α : Type} (name : String) (v : α) :
    ∀ l : List (String × α),
      assocFind name (assocSet name v l) =
        (assocFind name l).map (fun _ => v) := by
  intro l
  induction l with
  | nil => rfl
  | cons kv rest ih =>
      obtain ⟨k, w⟩ := kv
      by_cases hk : k = name
      · simp [assocSet, assocFind, hk]
      · simp [assocSet, assocFind, hk, ih]

theorem schemaFields_go (fields : Schema) :
    ∀ acc : StoreSchema,
      fields.foldl (fun a f => a ++ [(f.1, inferDuckdbType f.2)]) acc =
        acc ++ fields.map (fun p => (p.1, inferDuckdbType p.2)) := by
  induction fields with
  | nil => intro acc; simp
  | cons f fs ih =>
      intro acc
      simp only [List.foldl_cons, List.map_cons]
      rw [ih]
      simp [List.append_assoc]

theorem schemaFields_eq_map (fields : Schema) :
    schemaFields fields = fields.map (fun p => (p.1, inferDuckdbType p.2)) := by
  simpa using schemaFields_go fields []

/-! ## Helper lemmas on `do_put` -/

theorem doPut_existing (db : DB) (name : String) (t : ColumnarTable)
    (schema0 : StoreSchema) (rows0 : List Row) (h : t.rows ≠ [])
    (hfind : assocFind name db.tables = some (schema0, rows0))
    (hcompat : schemaFields t.schema = schema0) :
    doPut db name t =
      (⟨assocSet name (schema0, rows0 ++ t.rows) db.tables,
        ("temp_table", t) :: db.registered⟩, none) := by
  simp only [doPut, createTableIfNotExists, hfind]
  simp only [roundtrip_aux 1024 (by omega) t h]
  simp only [insertFromTemp, registerTransient, assocFind_head, hfind, hcompat]
  simp

theorem doPut_fresh (db : DB) (name : String) (t : ColumnarTable)
    (h : t.rows ≠ []) (hfresh : assocFind name db.tables = none) :
    doPut db name t =
      (⟨assocSet name (schemaFields t.schema, t.rows)
          (db.tables ++ [(name, (schemaFields t.schema, []))]),
        ("temp_table", t) :: db.registered⟩, none) := by
  simp only [doPut, createTableIfNotExists, hfresh]
  simp only [roundtrip_aux 1024 (by omega) t h]
  have hfind2 : assocFind name
      (db.tables ++ [(name, (schemaFields t.schema, ([] : List Row)))]) =
      some (schemaFields t.schema, ([] : List Row)) := by
    rw [assocFind_append_of_none name db.tables _ hfresh]
    simp [assocFind]
  simp only [insertFromTemp, registerTransient, assocFind_head, hfind2]
  simp

theorem doPut_ok_registered (db : DB) (name : String) (t : ColumnarTable)
    (db2 : DB) (h : doPut db name t = (db2, none)) :
    assocFind "temp_table" db2.registered = some t := by
  by_cases hrows : t.rows = []
  · exfalso
    have hb : toBatches 1024 t = [] := by
      simp [toBatches, hrows, chunkRows_nil]
    simp [doPut, hb, fromBatches] at h
  · cases hfind : assocFind name
        (createTableIfNotExists db name (schemaFields t.schema)).tables with
    | none =>
        simp only [doPut, roundtrip_aux 1024 (by omega) t hrows, insertFromTemp,
          registerTransient, assocFind_head, hfind] at h
        simp at h
    | some sv =>
        obtain ⟨schema0, rows0⟩ := sv
        simp only [doPut, roundtrip_aux 1024 (by omega) t hrows, insertFromTemp,
          registerTransient, assocFind_head, hfind] at h
        by_cases hcompat : schemaFields t.schema = schema0
        · rw [if_pos hcompat] at h
          have h1 := congrArg Prod.fst h
          simp only at h1
          subst h1
          simp [assocFind]
        · rw [if_neg hcompat] at h
          simp at h

theorem get_map_mk (schema : Schema) :
    ∀ (l : List (List Row)) (i : Nat)
      (h : i < (l.map (fun c => RecordBatch.mk schema c)).length)
      (h2 : i < l.length),
      (l.map (fun c => RecordBatch.mk schema c)).get ⟨i, h⟩ =
        RecordBatch.mk schema (l.get ⟨i, h2⟩) := by
  intro l
  induction l with
  | nil => intro i h h2; simp at h
  | cons a as ih =>
      intro i h h2
      cases i with
      | zero => rfl
      | succ j => exact ih j (by simpa using h) (by simpa using h2)

/-! ## C1: batch round-trip -/

/-- C1 counterexample: the round-trip law fails as stated for zero-row
tables.  Chunking a zero-row table yields the empty batch sequence whatever
the table's schema (so two different zero-row tables chunk to the same batch
sequence and no reassembly can recover both), and the code's reassembly
errors on the empty sequence. -/
theorem toBatches_empty_no_roundtrip :
    toBatches 1024 ⟨[("a", LogicalType.integer)], []⟩ = [] ∧
    toBatches 1024 (⟨[], []⟩ : ColumnarTable) = [] ∧
    (⟨[("a", LogicalType.integer)], []⟩ : ColumnarTable) ≠ ⟨[], []⟩ ∧
    fromBatches (toBatches 1024 ⟨[("a", LogicalType.integer)], []⟩) =
      .error .noSchema :=
  ⟨rfl, rfl, by decide, rfl⟩

/-- C1 (amended): for every ColumnarTable T with at least one row and every
chunk size at least 1, reassembling the batches produced by chunking T
yields a table equal to T — same schema, same rows, same order. -/
theorem fromBatches_toBatches_roundtrip (size : Nat) (t : ColumnarTable)
    (hs : 1 ≤ size) (h : t.rows ≠ []) :
    fromBatches (toBatches size t) = .ok t :=
  roundtrip_aux size hs t h

/-- Witness for C1 at chunk size 2 and a three-row table. -/
theorem fromBatches_toBatches_roundtrip_witness :
    fromBatches (toBatches 2 ⟨[("a", LogicalType.integer)], [[1], [2], [3]]⟩) =
      .ok ⟨[("a", LogicalType.integer)], [[1], [2], [3]]⟩ :=
  fromBatches_toBatches_roundtrip 2 ⟨[("a", LogicalType.integer)], [[1], [2], [3]]⟩
    (by omega) (by decide)

/-! ## C2: schema inference -/

/-- C2: schema inference is a pure, deterministic, total function on column
logical types: the first-match-wins chain maps integer to BIGINT, floating to
DOUBLE, string to VARCHAR, boolean to BOOLEAN, timestamp to TIMESTAMP, date
to DATE, anything else to VARCHAR; every type maps to exactly one store type;
and the produced list of (name, store type) pairs preserves the columns'
names and order. -/
theorem schema_inference_total_first_match :
    (inferDuckdbType .integer = .BIGINT ∧ inferDuckdbType .floating = .DOUBLE ∧
      inferDuckdbType .string = .VARCHAR ∧ inferDuckdbType .boolean = .BOOLEAN ∧
      inferDuckdbType .timestamp = .TIMESTAMP ∧ inferDuckdbType .date = .DATE ∧
      inferDuckdbType .other = .VARCHAR) ∧
    (∀ t : LogicalType, ∃! s : StoreType, inferDuckdbType t = s) ∧
    (∀ fields : Schema,
      schemaFields fields = fields.map (fun p => (p.1, inferDuckdbType p.2)) ∧
      (schemaFields fields).map Prod.fst = fields.map Prod.fst ∧
      (schemaFields fields).length = fields.length) := by
  refine ⟨⟨rfl, rfl, rfl, rfl, rfl, rfl, rfl⟩, ?_, ?_⟩
  · intro t
    exact ⟨inferDuckdbType t, rfl, fun s hs => hs.symm⟩
  · intro fields
    refine ⟨schemaFields_eq_map fields, ?_, ?_⟩
    · rw [schemaFields_eq_map, List.map_map]
      rfl
    · rw [schemaFields_eq_map, List.length_map]

/-! ## C3: retry bound -/

/-- C3: with maxAttempts N at least 1, if every connection attempt fails with
a transient unavailable error then connect performs exactly N attempts with
N - 1 fixed-interval sleeps between consecutive attempts and re-raises the
last underlying failure (the spec's ConnectionExhausted); if the substrate
first succeeds on attempt k with k at most N, exactly k attempts occur (with
k - 1 sleeps) and connect returns the connection. -/
theorem connect_retry_bound {E C : Type} (N : Nat) (hN : 1 ≤ N)
    (sub : Nat → Except E C) :
    (∀ err : Nat → E, (∀ j, sub j = .error (err j)) →
      connectWithRetry sub N = (.exhausted (err (N - 1)), ⟨N, N - 1⟩)) ∧
    (∀ (k : Nat) (c : C), 1 ≤ k → k ≤ N →
      (∀ j, j < k - 1 → ∃ e, sub j = .error e) →
      sub (k - 1) = .ok c →
      connectWithRetry sub N = (.connected c, ⟨k, k - 1⟩)) := by
  obtain ⟨n, rfl⟩ : ∃ n, N = n + 1 := ⟨N - 1, by omega⟩
  constructor
  · intro err hsub
    have h := connectGo_allfail sub err hsub n 0 0 0
    simpa [connectWithRetry] using h
  · intro k c hk hkN hfail hok
    obtain ⟨m, rfl⟩ : ∃ m, k = m + 1 := ⟨k - 1, by omega⟩
    have hfail2 : ∀ j, j < m → ∃ e, sub (0 + j) = .error e := by
      intro j hj
      have hx := hfail j (by omega)
      simpa using hx
    have hok2 : sub (0 + m) = .ok c := by simpa using hok
    have h := connectGo_success sub m 0 (n + 1) 0 0 c (by omega) hfail2 hok2
    simpa [connectWithRetry] using h

/-- Witness for C3: an always-failing substrate with three attempts, and a
substrate succeeding on the second attempt. -/
theorem connect_retry_bound_witness :
    connectWithRetry (fun i => (Except.error i : Except Nat Nat)) 3 =
      (.exhausted 2, ⟨3, 2⟩) ∧
    connectWithRetry
      (fun i => if i = 1 then (Except.ok 42 : Except Nat Nat) else .error i) 3 =
      (.connected 42, ⟨2, 1⟩) := by
  constructor
  · have h := (connect_retry_bound 3 (by omega)
      (fun i => (Except.error i : Except Nat Nat))).1 (fun i => i)
      (fun j => rfl)
    simpa using h
  · have hfail : ∀ j, j < 2 - 1 →
        ∃ e, (fun i => if i = 1 then (Except.ok 42 : Except Nat Nat)
          else .error i) j = .error e := by
      intro j hj
      have hj0 : j = 0 := by omega
      subst hj0
      exact ⟨0, rfl⟩
    have h := (connect_retry_bound 3 (by omega)
      (fun i => if i = 1 then (Except.ok 42 : Except Nat Nat) else .error i)).2
      2 42 (by omega) (by omega) hfail rfl
    simpa using h

/-! ## C4: chunk bounds and the zero-row get -/

/-- C4 counterexample: a get whose query yields zero rows does not succeed:
`do_get` reassembles the (empty) batch list of the zero-row result table and
that reassembly fails for want of a schema, so the call errors instead of
returning a stream. -/
theorem doGet_zero_rows_fails :
    doGet (fun _ => .ok ⟨[("a", LogicalType.integer)], []⟩) [83] =
      (.error (.reassembly .noSchema), [[83]]) := rfl

/-- C4 (amended): chunking slices rows in order with every batch of at most
`size` rows, every batch but the last of exactly `size` rows, each batch
tagged with the table's schema, and a zero-row table chunks to the empty
sequence (itself a valid value, not an error); but a get whose query yields
zero rows errors during batch reassembly instead of succeeding. -/
theorem toBatches_chunk_bounds (size : Nat) (hs : 1 ≤ size)
    (t : ColumnarTable) :
    (∀ b ∈ toBatches size t, b.schema = t.schema ∧ b.rows.length ≤ size) ∧
    (∀ (i : Nat) (h : i + 1 < (toBatches size t).length),
      ((toBatches size t).get ⟨i, Nat.lt_of_succ_lt h⟩).rows.length = size) ∧
    ((toBatches size t).map RecordBatch.rows).flatten = t.rows ∧
    (t.rows = [] ↔ toBatches size t = []) ∧
    (∀ exec : Query → Except StoreErr ColumnarTable, ∀ ticket q,
      decodeUtf8 ticket = some q → exec q = .ok t → t.rows = [] →
      doGet exec ticket = (.error (.reassembly .noSchema), [q])) := by
  refine ⟨?_, ?_, ?_, ?_, ?_⟩
  · intro b hb
    rcases List.mem_map.mp hb with ⟨c, hc, rfl⟩
    exact ⟨rfl, chunkRowsGo_mem_length size t.rows.length t.rows c hc⟩
  · intro i h
    have hlen : i + 1 < (chunkRows size t.rows).length := by
      simpa [toBatches] using h
    have hget := get_map_mk t.schema (chunkRows size t.rows) i
      (Nat.lt_of_succ_lt h) (Nat.lt_of_succ_lt hlen)
    show (((chunkRows size t.rows).map (fun c => RecordBatch.mk t.schema c)).get
        ⟨i, Nat.lt_of_succ_lt h⟩).rows.length = size
    rw [hget]
    exact chunkRows_get_length size hs t.rows i hlen
  · rw [show toBatches size t =
        (chunkRows size t.rows).map (fun c => RecordBatch.mk t.schema c) from rfl]
    rw [List.map_map, map_rows_mk]
    exact chunkRows_flatten size hs t.rows
  · constructor
    · intro hnil
      simp [toBatches, hnil, chunkRows_nil]
    · intro hnil
      have hnil2 : (chunkRows size t.rows).map
          (fun c => RecordBatch.mk t.schema c) = [] := hnil
      have hx : chunkRows size t.rows = [] := List.map_eq_nil_iff.mp hnil2
      exact (chunkRows_eq_nil_iff size t.rows).mp hx
  · intro exec ticket q hdec hexec hnil
    have hb : toBatches 1024 t = [] := by
      simp [toBatches, hnil, chunkRows_nil]
    simp [doGet, hdec, hexec, hb, fromBatches]

/-- Witness for C4 at chunk size 2 and a three-row table. -/
theorem toBatches_chunk_bounds_witness :
    ((toBatches 2 ⟨[("a", LogicalType.integer)], [[0], [1], [2]]⟩).map
      RecordBatch.rows).flatten = [[0], [1], [2]] :=
  (toBatches_chunk_bounds 2 (by omega)
    ⟨[("a", LogicalType.integer)], [[0], [1], [2]]⟩).2.2.1

/-! ## C5: the client facade never raises -/

/-- C5 counterexample: for the underlying ValueError whose message mentions
"Must pass schema, or at least one RecordBatch" (the zero-row result case),
`execute_query` returns an empty table, not the `None` sentinel the claim
promises for every underlying failure. -/
theorem executeQuery_empty_result_not_none :
    executeQuery (.error ⟨true, true, 0⟩) = .ok (some emptyTable) ∧
    (Except.ok (some emptyTable) : Except PyExn (Option ColumnarTable)) ≠
      .ok none := by
  constructor
  · rfl
  · intro h
    exact Option.noConfusion (Except.ok.inj h)

/-- C5 (amended): the facade never raises for post-connection operations —
every outcome of the underlying call yields a returned value.  On an
underlying failure, query returns the `None` sentinel except for the specific
ValueError marking an empty result (message "Must pass schema, or at least
one RecordBatch"), which is converted to an empty table; upload returns
`False` and action returns the empty list on every failure. -/
theorem facade_never_raises (rq : Except PyExn ColumnarTable)
    (ru : Except PyExn Unit) (ra : Except PyExn (List (List Nat))) :
    (∃ v, executeQuery rq = .ok v) ∧ (∃ b, uploadData ru = .ok b) ∧
    (∃ l, executeAction ra = .ok l) ∧
    (∀ e : PyExn,
      ((e.isValueError = true ∧ e.hasSchemaMsg = true) →
        executeQuery (.error e) = .ok (some emptyTable)) ∧
      (¬(e.isValueError = true ∧ e.hasSchemaMsg = true) →
        executeQuery (.error e) = .ok none) ∧
      uploadData (.error e) = .ok false ∧
      executeAction (.error e) = .ok []) := by
  refine ⟨?_, ?_, ?_, ?_⟩
  · cases rq with
    | ok t => exact ⟨some t, rfl⟩
    | error e =>
        by_cases hv : e.isValueError = true
        · by_cases hm : e.hasSchemaMsg = true
          · exact ⟨some emptyTable, by simp [executeQuery, readAllRecover, hv, hm]⟩
          · exact ⟨none, by simp [executeQuery, readAllRecover, hv, hm]⟩
        · exact ⟨none, by simp [executeQuery, readAllRecover, hv]⟩
  · cases ru with
    | ok u => exact ⟨true, rfl⟩
    | error e => exact ⟨false, rfl⟩
  · cases ra with
    | ok l => exact ⟨l, rfl⟩
    | error e => exact ⟨[], rfl⟩
  · intro e
    refine ⟨?_, ?_, rfl, rfl⟩
    · rintro ⟨hv, hm⟩
      simp [executeQuery, readAllRecover, hv, hm]
    · intro hn
      by_cases hv : e.isValueError = true
      · by_cases hm : e.hasSchemaMsg = true
        · exact absurd ⟨hv, hm⟩ hn
        · simp [executeQuery, readAllRecover, hv, hm]
      · simp [executeQuery, readAllRecover, hv]

/-- Witness for C5 at a concrete non-ValueError underlying failure. -/
theorem facade_never_raises_witness :
    executeQuery (.error ⟨false, false, 7⟩) = .ok none ∧
    uploadData (.error ⟨false, false, 7⟩) = .ok false ∧
    executeAction (.error ⟨false, false, 7⟩) = .ok [] := by
  have h := facade_never_raises (.error ⟨false, false, 7⟩)
    (.error ⟨false, false, 7⟩) (.error ⟨false, false, 7⟩)
  refine ⟨(h.2.2.2 ⟨false, false, 7⟩).2.1 ?_, (h.2.2.2 ⟨false, false, 7⟩).2.2.1,
    (h.2.2.2 ⟨false, false, 7⟩).2.2.2⟩
  rintro ⟨hv, _⟩
  exact absurd hv (by decide)

/-! ## C6: action dispatch -/

/-- C6: an action of type "query" decodes its body as UTF-8 SQL, executes it
on the store with no result capture (exactly that one query is executed), and
returns the empty result sequence; an action of any other type fails with the
unsupported-action error carrying the rejected type string and executes
nothing on the store. -/
theorem doAction_dispatch (exec : Query → Except StoreErr Unit)
    (atype : String) (body : List Nat) :
    (atype = "query" → ∀ q, decodeUtf8 body = some q → exec q = .ok () →
      doAction exec atype body = (.ok [], [q])) ∧
    (atype ≠ "query" →
      doAction exec atype body = (.error (.unsupportedAction atype), [])) := by
  constructor
  · intro ha q hdec hexec
    simp [doAction, ha, hdec, hexec]
  · intro ha
    simp [doAction, ha]

/-- Witness for C6 at the action types "query" and "bogus". -/
theorem doAction_dispatch_witness :
    doAction (fun _ => Except.ok ()) "query" [83] = (.ok [], [[83]]) ∧
    doAction (fun _ => Except.ok ()) "bogus" [83] =
      (.error (.unsupportedAction "bogus"), []) :=
  ⟨(doAction_dispatch (fun _ => Except.ok ()) "query" [83]).1 rfl [83] rfl rfl,
    (doAction_dispatch (fun _ => Except.ok ()) "bogus" [83]).2 (by decide)⟩

/-! ## C7: idempotent DDL on put -/

/-- C7 counterexample: a put of a zero-row table errors (after the CREATE,
before the INSERT): the alignment round trip `from_batches(to_batches(.))`
fails on the empty batch list, so "calling put twice with identical schema
never errors" is false already for the pair of identical zero-row tables. -/
theorem doPut_empty_table_errors :
    (doPut ⟨[], []⟩ "t" ⟨[("a", LogicalType.integer)], []⟩).2 =
      some (.reassembly .noSchema) := rfl

/-- C7 (amended): for every fresh table name and every pair of uploaded
tables with identical schemas, each with at least one row, both puts succeed
(the second CREATE TABLE IF NOT EXISTS leaves the first put's schema
untouched) and the persistent table afterwards holds the first table's rows
followed by the second's, so its row count is the sum of the two. -/
theorem doPut_twice_identical_schema (db : DB) (name : String)
    (t1 t2 : ColumnarTable) (hsch : t1.schema = t2.schema)
    (h1 : t1.rows ≠ []) (h2 : t2.rows ≠ [])
    (hfresh : assocFind name db.tables = none) :
    ∃ db1 db2 : DB,
      doPut db name t1 = (db1, none) ∧ doPut db1 name t2 = (db2, none) ∧
      assocFind name db1.tables = some (schemaFields t1.schema, t1.rows) ∧
      assocFind name db2.tables =
        some (schemaFields t1.schema, t1.rows ++ t2.rows) ∧
      (t1.rows ++ t2.rows).length = t1.rows.length + t2.rows.length := by
  have hput1 := doPut_fresh db name t1 h1 hfresh
  have hfindext : assocFind name
      (db.tables ++ [(name, (schemaFields t1.schema, ([] : List Row)))]) =
      some (schemaFields t1.schema, ([] : List Row)) := by
    rw [assocFind_append_of_none name db.tables _ hfresh]
    simp [assocFind]
  have hfind1 : assocFind name (assocSet name (schemaFields t1.schema, t1.rows)
      (db.tables ++ [(name, (schemaFields t1.schema, ([] : List Row)))])) =
      some (schemaFields t1.schema, t1.rows) := by
    rw [assocFind_set, hfindext]
    rfl
  have hcompat2 : schemaFields t2.schema = schemaFields t1.schema := by
    rw [hsch]
  have hput2 := doPut_existing
    ⟨assocSet name (schemaFields t1.schema, t1.rows)
        (db.tables ++ [(name, (schemaFields t1.schema, ([] : List Row)))]),
      ("temp_table", t1) :: db.registered⟩
    name t2 (schemaFields t1.schema) t1.rows h2 hfind1 hcompat2
  refine ⟨⟨assocSet name (schemaFields t1.schema, t1.rows)
        (db.tables ++ [(name, (schemaFields t1.schema, ([] : List Row)))]),
      ("temp_table", t1) :: db.registered⟩,
    ⟨assocSet name (schemaFields t1.schema, t1.rows ++ t2.rows)
        (assocSet name (schemaFields t1.schema, t1.rows)
          (db.tables ++ [(name, (schemaFields t1.schema, ([] : List Row)))])),
      ("temp_table", t2) :: ("temp_table", t1) :: db.registered⟩,
    hput1, hput2, hfind1, ?_, List.length_append _ _⟩
  show assocFind name (assocSet name (schemaFields t1.schema, t1.rows ++ t2.rows)
      (assocSet name (schemaFields t1.schema, t1.rows)
        (db.tables ++ [(name, (schemaFields t1.schema, ([] : List Row)))]))) =
    some (schemaFields t1.schema, t1.rows ++ t2.rows)
  rw [assocFind_set, hfind1]
  rfl

/-- Witness for C7: two three-row tables with identical schemas put under
one fresh name; the final row count is six. -/
theorem doPut_twice_identical_schema_witness :
    ∃ db1 db2 : DB,
      doPut ⟨[], []⟩ "m" ⟨[("id", LogicalType.integer)], [[1], [2], [3]]⟩ =
        (db1, none) ∧
      doPut db1 "m" ⟨[("id", LogicalType.integer)], [[4], [5], [6]]⟩ =
        (db2, none) ∧
      assocFind "m" db1.tables =
        some (schemaFields [("id", LogicalType.integer)], [[1], [2], [3]]) ∧
      assocFind "m" db2.tables =
        some (schemaFields [("id", LogicalType.integer)],
          [[1], [2], [3]] ++ [[4], [5], [6]]) ∧
      (([[1], [2], [3]] ++ [[4], [5], [6]] : List Row)).length =
        ([[1], [2], [3]] : List Row).length +
          ([[4], [5], [6]] : List Row).length :=
  doPut_twice_identical_schema ⟨[], []⟩ "m"
    ⟨[("id", LogicalType.integer)], [[1], [2], [3]]⟩
    ⟨[("id", LogicalType.integer)], [[4], [5], [6]]⟩
    rfl (by decide) (by decide) rfl

/-! ## C8: invalid UTF-8 tickets -/

/-- C8: for every ticket whose bytes are not valid UTF-8, a get call fails
with the specific invalid-encoding error (not a generic one) and executes no
query against the store. -/
theorem doGet_invalid_utf8 (exec : Query → Except StoreErr ColumnarTable)
    (ticket : List Nat) (h : decodeUtf8 ticket = none) :
    doGet exec ticket = (.error .invalidEncoding, []) := by
  simp [doGet, h]

/-- Witness for C8 at the ill-formed single byte 255. -/
theorem doGet_invalid_utf8_witness :
    doGet (fun _ => Except.error 0) [255] = (.error .invalidEncoding, []) :=
  doGet_invalid_utf8 (fun _ => Except.error 0) [255] rfl

/-! ## C9: zero connection attempts -/

/-- C9: with max_attempts 0 the retry loop body never runs, so no connection
attempt and no sleep occurs and the function returns Python's implicit None;
client construction then succeeds with its client handle set to None rather
than failing with a connection-exhausted error. -/
theorem connect_zero_attempts {E C : Type} (sub : Nat → Except E C)
    (host : String) (port : Nat) :
    connectWithRetry sub 0 = (.fellOff, ⟨0, 0⟩) ∧
    clientInit sub host port 0 = .ok ⟨mkLocation host port, none⟩ :=
  ⟨rfl, rfl⟩

/-! ## C10: the fixed transient registration -/

/-- C10: every successful do_put leaves the incoming table registered on the
shared connection under the single fixed transient name "temp_table" (the
call's effect is not confined to the target persistent table), and a later
successful put overwrites the binding with its own table. -/
theorem doPut_registers_temp_table (db : DB) (name : String)
    (t : ColumnarTable) (db1 : DB) (h : doPut db name t = (db1, none)) :
    assocFind "temp_table" db1.registered = some t ∧
    (∀ (name2 : String) (t2 : ColumnarTable) (db2 : DB),
      doPut db1 name2 t2 = (db2, none) →
      assocFind "temp_table" db2.registered = some t2) :=
  ⟨doPut_ok_registered db name t db1 h,
    fun name2 t2 db2 h2 => doPut_ok_registered db1 name2 t2 db2 h2⟩

/-- Witness for C10 at a concrete successful put. -/
theorem doPut_registers_temp_table_witness :
    assocFind "temp_table"
      ((doPut ⟨[], []⟩ "t"
        ⟨[("a", LogicalType.integer)], [[1], [2]]⟩).1).registered =
      some ⟨[("a", LogicalType.integer)], [[1], [2]]⟩ :=
  (doPut_registers_temp_table ⟨[], []⟩ "t"
    ⟨[("a", LogicalType.integer)], [[1], [2]]⟩
    (doPut ⟨[], []⟩ "t" ⟨[("a", LogicalType.integer)], [[1], [2]]⟩).1 rfl).1

end DuckTakesFlight
